import Mathlib

/-!
Verification of the stress-analysis helpers of the Sudiksha mental-health
advisor application.  The definitions below are shallow embeddings of the
Python source (src/app.py): `get_stress_level`, `get_stress_description`,
the analyze-button handler and the session history update.  The external
generative capability is represented by an explicit outcome value: either
the raw response text, or an exception raised by the call.  Digits are
modelled as the ASCII characters 0-9 and whitespace as the ASCII
whitespace set of Python `str.strip`.
-/

/-- Outcome of one call to the external generative capability: either the
raw response text, or an exception raised by the call. -/
inductive GenOutcome where
  | ok (text : String)
  | exn (msg : String)

/-- Numeric value of a list of digit characters, most significant first:
the effect of Python `int` on a matched digit group. -/
def natOfDigits (l : List Char) : Nat :=
  l.foldl (fun a c => 10 * a + (c.toNat - 48)) 0

/-- First maximal run of decimal digits in a character list: the match
found by the digit regex search in `get_stress_level`. -/
def digitRun : List Char → Option (List Char)
  | [] => none
  | c :: cs =>
    if c.isDigit then some (c :: cs.takeWhile Char.isDigit) else digitRun cs

/-- The regex search for digits followed by `int` on the match: the number
the source extracts from the raw response text, if any. -/
def extractNumber (s : String) : Option Int :=
  (digitRun s.data).map fun r => (natOfDigits r : Int)

/-- Embedding of `get_stress_level` (src/app.py lines 372-396): inside a
catch-all try block, search the response text for the first run of
digits; on a match, clamp the parsed value with `min 100 (max 0 v)`; with
no match, or when the capability raises, return the default 50. -/
def get_stress_level : GenOutcome → Int
  | .exn _ => 50
  | .ok t =>
    match extractNumber t with
    | some v => min 100 (max 0 v)
    | none => 50

/-- The band description returned for levels below 25. -/
def minimalDesc : String := "😌 Minimal Stress - You seem relatively calm and balanced."

/-- The band description returned for levels in 25-49. -/
def mildDesc : String := "😐 Mild Stress - Some tension present but manageable."

/-- The band description returned for levels in 50-74. -/
def moderateDesc : String := "😟 Moderate Stress - Noticeable stress that needs attention."

/-- The band description returned for levels of 75 and above. -/
def highDesc : String := "😰 High Stress - Significant distress detected. Please seek support."

/-- Embedding of `get_stress_description` (src/app.py lines 398-407). -/
def get_stress_description (level : Int) : String :=
  if level < 25 then minimalDesc
  else if level < 50 then mildDesc
  else if level < 75 then moderateDesc
  else highDesc

/-- One entry of the session analysis history (src/app.py lines 598-602). -/
structure HistEntry where
  mode : String
  input_preview : String
  stress_level : Int

/-- The `input_preview` field stored with a history entry: the first 80
characters of the input followed by "..." when the input is longer than
80 characters, the whole input otherwise. -/
def inputPreview (t : String) : String :=
  if t.length > 80 then String.mk (t.data.take 80) ++ "..." else t

/-- Embedding of the body of the analyze handler after the emptiness check
(src/app.py lines 514-630): stress scoring via `get_stress_level`, then
the detailed-analysis call inside a try block that appends exactly one
history entry after a successful response and leaves the history
untouched when the call raises.  An `Except.error` result would mean an
exception escaping the handler. -/
def runAnalysis (hist : List HistEntry) (mode text : String)
    (o1 o2 : GenOutcome) : Except String (Int × List HistEntry) :=
  let stress := get_stress_level o1
  match o2 with
  | .exn _ => .ok (stress, hist)
  | .ok _ => .ok (stress, hist ++ [⟨mode, inputPreview text, stress⟩])

/-- The whitespace characters stripped by Python `str.strip` (ASCII set). -/
def isPyWhitespace (c : Char) : Bool :=
  c == ' ' || c == '\t' || c == '\n' || c == '\r' || c == '\x0b' || c == '\x0c'

/-- Python `str.strip`: remove leading and trailing whitespace. -/
def pyStrip (t : String) : String :=
  String.mk (((t.data.dropWhile isPyWhitespace).reverse.dropWhile isPyWhitespace).reverse)

/-- Embedding of the analyze-button handler (src/app.py lines 512-513 and
631-632): when the stripped input is nonempty the analysis pipeline runs,
otherwise a warning is shown (`none`) and no model call is made. -/
def onAnalyzeClick (hist : List HistEntry) (mode userText : String)
    (o1 o2 : GenOutcome) : Option (Except String (Int × List HistEntry)) :=
  if pyStrip userText = "" then none
  else some (runAnalysis hist mode userText o1 o2)

/-- A quotation-mark character, written via its code point. -/
def quoteChar : Char := Char.ofNat 34

/-- An opening brace character, written via its code point. -/
def braceOpen : Char := Char.ofNat 123

/-- A closing brace character, written via its code point. -/
def braceClose : Char := Char.ofNat 125

/-- Characters allowed in a bare identifier-style key. -/
def isIdentChar (c : Char) : Bool := c.isAlphanum || c == '_'

/-- Suffix of the list starting at the first opening brace, if any. -/
def fromBrace : List Char → Option (List Char)
  | [] => none
  | c :: cs => if c == braceOpen then some (c :: cs) else fromBrace cs

/-- The characters up to and including the first closing brace. -/
def upToClose : List Char → Option (List Char)
  | [] => none
  | c :: cs => if c == braceClose then some [c] else (upToClose cs).map (c :: ·)

/-- Modelled from the spec (claim C5, spec section 4.2): the first
brace-delimited object substring of the raw response, used by the claimed
adapter behaviour.  This JSON-locating adapter is absent from
src/app.py. -/
def braceSubstring (s : String) : Option (List Char) :=
  (fromBrace s.data).bind fun l =>
    match l with
    | c :: rest => (upToClose rest).map (fun t => c :: t)
    | [] => none

/-- Whether the next non-space character is a colon (so the identifier
just read stands in key position). -/
def colonNext (l : List Char) : Bool :=
  (l.dropWhile (fun c => c == ' ')).head? == some ':'

/-- Worker for the repair pass: `pend` holds the identifier run currently
being read; when the run ends right before a colon it is emitted inside
quotation marks, otherwise unchanged. -/
def repairAux : List Char → List Char → List Char
  | pend, [] => pend
  | pend, c :: cs =>
    if pend.isEmpty then
      if c.isAlpha then repairAux [c] cs
      else c :: repairAux [] cs
    else
      if isIdentChar c then repairAux (pend ++ [c]) cs
      else if colonNext (c :: cs) then
        (quoteChar :: pend ++ [quoteChar]) ++ c :: repairAux [] cs
      else pend ++ c :: repairAux [] cs

/-- Modelled from the spec (claim C5, spec section 4.2): the single repair
pass that quotes bare identifier-style keys before the parse is
retried. -/
def repairKeys (l : List Char) : List Char := repairAux [] l

/-- The quoted key pattern for the score field. -/
def scoreKeyPattern : List Char :=
  quoteChar :: 's' :: 'c' :: 'o' :: 'r' :: 'e' :: [quoteChar]

/-- Characters following the quoted score key, if the key occurs. -/
def afterScoreKey : List Char → Option (List Char)
  | [] => none
  | c :: cs =>
    if scoreKeyPattern.isPrefixOf (c :: cs) then some ((c :: cs).drop 7)
    else afterScoreKey cs

/-- Parse an integer after an expected colon, spaces allowed around it. -/
def intAfterColon (l : List Char) : Option Int :=
  match l.dropWhile (fun c => c == ' ') with
  | ':' :: rest =>
    match rest.dropWhile (fun c => c == ' ') with
    | '-' :: ds =>
      let r := ds.takeWhile Char.isDigit
      if r.isEmpty then none else some (-(natOfDigits r : Int))
    | ds =>
      let r := ds.takeWhile Char.isDigit
      if r.isEmpty then none else some ((natOfDigits r : Int))
  | _ => none

/-- Modelled from the spec (claim C5): the numeric value of the score
field of a located object, when present. -/
def scoreField (obj : List Char) : Option Int :=
  (afterScoreKey obj).bind intAfterColon

/-- Modelled from the spec (claim C5, spec section 4.2): the behaviour
the claim attributes to the response adapter, absent from src/app.py.
Following the words of the claim: locate the first brace-delimited object
substring of the raw response, parse its score field, on failure retry
once after the key-quoting repair pass, clamp the parsed value into
0-100, and return `none` when everything fails.  The source function
`get_stress_level` is compared against this definition. -/
def claimedAdapter (s : String) : Option Int :=
  match braceSubstring s with
  | none => none
  | some obj =>
    match scoreField obj with
    | some v => some (min 100 (max 0 v))
    | none =>
      match scoreField (repairKeys obj) with
      | some v => some (min 100 (max 0 v))
      | none => none

/-- One external scoring opinion of the spec data model: a score together
with a self-reported confidence. -/
structure Signal where
  score : Int
  confidence : ℚ

/-- Modelled from the spec: the weight-resolution rules of section 4.3,
steps 2-6, of the score aggregator, which is absent from src/app.py.
Returns `(w_model, w_lex, w_reason)`.  The both-signals-absent case
follows Testable Property 5 of the spec: all weight lands on the
lexicon. -/
def resolveWeights (modelSig reasonSig : Option Signal) : ℚ × ℚ × ℚ :=
  let cm := (modelSig.map Signal.confidence).getD 0
  let cr := (reasonSig.map Signal.confidence).getD 0
  let wm := (45 / 100 : ℚ) * (1 / 2 + 1 / 2 * cm)
  let wr := (25 / 100 : ℚ) * (1 / 2 + 1 / 2 * cr)
  let wl := 1 - (wm + wr)
  let base :=
    if wl < 1 / 10 then
      let s := wm + 1 / 10 + wr
      (wm / s, (1 / 10 : ℚ) / s, wr / s)
    else (wm, wl, wr)
  let afterModel :=
    if modelSig.isNone then ((0 : ℚ), (75 / 100 : ℚ), (25 / 100 : ℚ)) else base
  if reasonSig.isNone then
    if modelSig.isNone then ((0 : ℚ), 1, 0)
    else
      (afterModel.1 + afterModel.2.2 * (6 / 10),
       afterModel.2.1 + afterModel.2.2 * (4 / 10), 0)
  else afterModel

/-- Modelled from the spec: the blending step of the score aggregator of
section 4.3, steps 7-8, absent from src/app.py: blend the lexicon score
with the model and reasoning values under the resolved weights, round,
and clamp into 0-100. -/
def aggregate (lex : Int) (modelSig reasonSig : Option Signal) : Int :=
  let w := resolveWeights modelSig reasonSig
  let mv : Int := (modelSig.map Signal.score).getD 50
  let rv : Int := (reasonSig.map Signal.score).getD mv
  min 100 (max 0 (round ((mv : ℚ) * w.1 + (lex : ℚ) * w.2.1 + (rv : ℚ) * w.2.2)))

lemma stress_bounds (o : GenOutcome) :
    0 ≤ get_stress_level o ∧ get_stress_level o ≤ 100 := by
  cases o with
  | exn m => simp [get_stress_level]
  | ok t =>
    cases h : extractNumber t with
    | none => simp [get_stress_level, h]
    | some v =>
      simp only [get_stress_level, h]
      exact ⟨le_min (by norm_num) (le_max_left 0 v), min_le_left _ _⟩

lemma takeWhile_append_of_all {α : Type} (p : α → Bool) :
    ∀ (l₁ l₂ : List α), (∀ c ∈ l₁, p c = true) →
      (l₁ ++ l₂).takeWhile p = l₁ ++ l₂.takeWhile p
  | [], _, _ => rfl
  | c :: cs, l₂, h => by
    have hc : p c = true := h c (List.mem_cons_self c cs)
    simp only [List.cons_append, List.takeWhile_cons, hc, if_true]
    rw [takeWhile_append_of_all p cs l₂ (fun d hd => h d (List.mem_cons_of_mem c hd))]

lemma takeWhile_nil_of_head {α : Type} (p : α → Bool) (l : List α)
    (h : ∀ d, l.head? = some d → p d = false) : l.takeWhile p = [] := by
  cases l with
  | nil => rfl
  | cons c cs =>
    have hc := h c rfl
    simp [List.takeWhile_cons, hc]

lemma digitRun_eq_none_iff :
    ∀ l : List Char, digitRun l = none ↔ ∀ c ∈ l, c.isDigit = false := by
  intro l
  induction l with
  | nil => simp [digitRun]
  | cons c cs ih =>
    simp only [digitRun]
    by_cases hc : c.isDigit = true
    · rw [if_pos hc]
      refine ⟨fun h => Option.noConfusion h, fun h => ?_⟩
      have hf := h c (List.mem_cons_self c cs)
      rw [hc] at hf
      exact Bool.noConfusion hf
    · rw [if_neg hc, ih]
      simp only [Bool.not_eq_true] at hc
      constructor
      · intro h d hd
        rcases List.mem_cons.mp hd with rfl | hd2
        · exact hc
        · exact h d hd2
      · intro h d hd
        exact h d (List.mem_cons_of_mem c hd)

lemma digitRun_of_decomp (run post : List Char) :
    ∀ pre : List Char, (∀ c ∈ pre, c.isDigit = false) → run ≠ [] →
      (∀ c ∈ run, c.isDigit = true) →
      (∀ d, post.head? = some d → d.isDigit = false) →
      digitRun (pre ++ run ++ post) = some run
  | [], _, hne, hrun, hpost => by
    cases run with
    | nil => exact absurd rfl hne
    | cons r rs =>
      have hr : r.isDigit = true := hrun r (List.mem_cons_self r rs)
      show digitRun (r :: (rs ++ post)) = some (r :: rs)
      simp only [digitRun, hr, if_true]
      rw [takeWhile_append_of_all Char.isDigit rs post
            (fun d hd => hrun d (List.mem_cons_of_mem r hd)),
          takeWhile_nil_of_head Char.isDigit post hpost]
      simp
  | c :: pre, hpre, hne, hrun, hpost => by
    have hc : c.isDigit = false := hpre c (List.mem_cons_self c pre)
    show digitRun (c :: (pre ++ run ++ post)) = some run
    simp only [digitRun]
    rw [if_neg (by simp [hc])]
    exact digitRun_of_decomp run post pre
      (fun d hd => hpre d (List.mem_cons_of_mem c hd)) hne hrun hpost

lemma extractNumber_eq_none_iff (s : String) :
    extractNumber s = none ↔ ∀ c ∈ s.data, c.isDigit = false := by
  have h : extractNumber s = none ↔ digitRun s.data = none := by
    unfold extractNumber
    cases digitRun s.data <;> simp
  rw [h, digitRun_eq_none_iff]

lemma extractNumber_of_decomp (s : String) (pre run post : List Char)
    (hs : s.data = pre ++ run ++ post)
    (hpre : ∀ c ∈ pre, c.isDigit = false) (hne : run ≠ [])
    (hrun : ∀ c ∈ run, c.isDigit = true)
    (hpost : ∀ d, post.head? = some d → d.isDigit = false) :
    extractNumber s = some ((natOfDigits run : Int)) := by
  unfold extractNumber
  rw [hs, digitRun_of_decomp run post pre hpre hne hrun hpost]
  rfl

lemma pyStrip_eq_empty_iff (t : String) :
    pyStrip t = "" ↔ ∀ c ∈ t.data, isPyWhitespace c = true := by
  unfold pyStrip
  constructor
  · intro h
    have hl : ((t.data.dropWhile isPyWhitespace).reverse.dropWhile isPyWhitespace).reverse
        = [] := by
      have := congrArg String.data h
      simpa using this
    rw [List.reverse_eq_nil_iff, List.dropWhile_eq_nil_iff] at hl
    intro c hc
    rw [← List.takeWhile_append_dropWhile (p := isPyWhitespace) (l := t.data)] at hc
    rcases List.mem_append.mp hc with h1 | h2
    · exact List.mem_takeWhile_imp h1
    · exact hl c (List.mem_reverse.mpr h2)
  · intro h
    have h1 : t.data.dropWhile isPyWhitespace = [] :=
      List.dropWhile_eq_nil_iff.mpr h
    rw [h1]
    rfl

lemma inputPreview_spec (t : String) :
    (inputPreview t).length ≤ 83 ∧
    (t.length ≤ 80 → inputPreview t = t) ∧
    (80 < t.length → inputPreview t = String.mk (t.data.take 80) ++ "...") := by
  unfold inputPreview
  split_ifs with h
  · refine ⟨?_, fun h2 => by omega, fun _ => rfl⟩
    have he : (String.mk (t.data.take 80) ++ "...")
        = String.mk (t.data.take 80 ++ "...".data) := rfl
    rw [he]
    show (t.data.take 80 ++ "...".data).length ≤ 83
    rw [List.length_append, List.length_take]
    have : "...".data.length = 3 := rfl
    omega
  · refine ⟨?_, fun _ => rfl, fun h2 => by omega⟩
    show t.data.length ≤ 83
    have : t.length = t.data.length := rfl
    omega


/-- Claim C1: for every outcome of the external call - response text with
or without digits, out-of-range numbers, or a raised exception - the
value produced by `get_stress_level` is an integer in 0-100; a parsed
value is clamped into that range. -/
theorem claim_C1_stress_level_bounded (o : GenOutcome) :
    0 ≤ get_stress_level o ∧ get_stress_level o ≤ 100 ∧
    (∀ t v, o = .ok t → extractNumber t = some v →
      get_stress_level o = min 100 (max 0 v)) := by
  obtain ⟨h0, h1⟩ := stress_bounds o
  refine ⟨h0, h1, ?_⟩
  rintro t v rfl h
  simp [get_stress_level, h]

theorem claim_C1_witness :
    get_stress_level (.ok "stress 500") = min 100 (max 0 500) :=
  (claim_C1_stress_level_bounded (.ok "stress 500")).2.2 "stress 500" 500 rfl
    (by decide)

/-- Claim C2 counterexample: on a response with no parseable numeric
field, and on a raised exception, `get_stress_level` returns the numeric
default 50 - not a `None`-like no-signal result as the claim states. -/
theorem claim_C2_counterexample :
    extractNumber "I cannot assess this." = none ∧
    get_stress_level (.ok "I cannot assess this.") = 50 ∧
    get_stress_level (.exn "timeout") = 50 := by decide

/-- Claim C2 amended: for every input on which the external signal cannot
be obtained - no digit run in the response, or a raised exception - the
function returns the numeric default 50 (moderate) rather than raising
or returning a no-signal result. -/
theorem claim_C2_amended_default_50 :
    (∀ s, extractNumber s = none → get_stress_level (.ok s) = 50) ∧
    (∀ m, get_stress_level (.exn m) = 50) := by
  constructor
  · intro s h
    simp [get_stress_level, h]
  · intro m
    rfl

theorem claim_C2_witness :
    get_stress_level (.ok "xyz") = 50 ∧ get_stress_level (.exn "err") = 50 :=
  ⟨claim_C2_amended_default_50.1 "xyz" (by decide),
   claim_C2_amended_default_50.2 "err"⟩

/-- Claim C3: the severity-band function maps levels below 25 to Minimal,
25-49 to Mild, 50-74 to Moderate and 75 and above to High, with
half-open lower-inclusive boundaries. -/
theorem claim_C3_severity_bands (level : Int) :
    (level < 25 → get_stress_description level = minimalDesc) ∧
    (25 ≤ level ∧ level < 50 → get_stress_description level = mildDesc) ∧
    (50 ≤ level ∧ level < 75 → get_stress_description level = moderateDesc) ∧
    (75 ≤ level → get_stress_description level = highDesc) := by
  unfold get_stress_description
  refine ⟨fun h => ?_, fun h => ?_, fun h => ?_, fun h => ?_⟩ <;>
    split_ifs <;> first | rfl | omega

theorem claim_C3_witness :
    get_stress_description 24 = minimalDesc ∧
    get_stress_description 25 = mildDesc ∧
    get_stress_description 49 = mildDesc ∧
    get_stress_description 50 = moderateDesc ∧
    get_stress_description 74 = moderateDesc ∧
    get_stress_description 75 = highDesc :=
  ⟨(claim_C3_severity_bands 24).1 (by norm_num),
   (claim_C3_severity_bands 25).2.1 ⟨by norm_num, by norm_num⟩,
   (claim_C3_severity_bands 49).2.1 ⟨by norm_num, by norm_num⟩,
   (claim_C3_severity_bands 50).2.2.1 ⟨by norm_num, by norm_num⟩,
   (claim_C3_severity_bands 74).2.2.1 ⟨by norm_num, by norm_num⟩,
   (claim_C3_severity_bands 75).2.2.2 (by norm_num)⟩

/-- Claim C4: the scoring pipeline is total - for every input text and
every combination of upstream outcomes, including raised exceptions, it
produces a bounded score and no exception (an `Except.error`) propagates
out of the handler. -/
theorem claim_C4_pipeline_total (hist : List HistEntry) (mode text : String)
    (o1 o2 : GenOutcome) :
    ∃ score hist2, runAnalysis hist mode text o1 o2 = .ok (score, hist2) ∧
      0 ≤ score ∧ score ≤ 100 := by
  obtain ⟨h0, h1⟩ := stress_bounds o1
  cases o2 with
  | exn m => exact ⟨_, _, rfl, h0, h1⟩
  | ok r => exact ⟨_, _, rfl, h0, h1⟩

/-- Claim C5 counterexample: on a response whose brace-delimited object
parses (after the key-quoting repair pass) to score 70, the source
function ignores the object and returns 9, the value of the first digit
run of the surrounding prose. -/
theorem claim_C5_counterexample :
    claimedAdapter "Stress scored 9 of 10 \x7bscore: 70\x7d" = some 70 ∧
    get_stress_level (.ok "Stress scored 9 of 10 \x7bscore: 70\x7d") = 9 ∧
    (9 : Int) ≠ 70 := by decide

/-- Claim C5 amended: the response adapter performs no JSON location or
repair: it extracts the first maximal run of decimal digits anywhere in
the response (prose and brace content alike), clamps the parsed value
into 0-100, and returns the default 50 - not `None` - when the response
contains no digit; it never raises. -/
theorem claim_C5_amended_digit_extraction (s : String) :
    ((∀ c ∈ s.data, c.isDigit = false) → get_stress_level (.ok s) = 50) ∧
    (∀ pre run post : List Char, s.data = pre ++ run ++ post →
      (∀ c ∈ pre, c.isDigit = false) → run ≠ [] →
      (∀ c ∈ run, c.isDigit = true) →
      (∀ d, post.head? = some d → d.isDigit = false) →
      get_stress_level (.ok s) = min 100 (max 0 (natOfDigits run : Int))) := by
  constructor
  · intro h
    have hn := (extractNumber_eq_none_iff s).mpr h
    simp [get_stress_level, hn]
  · intro pre run post hs hpre hne hrun hpost
    have he := extractNumber_of_decomp s pre run post hs hpre hne hrun hpost
    simp [get_stress_level, he]

theorem claim_C5_witness :
    get_stress_level (.ok "no digits at all") = 50 ∧
    get_stress_level (.ok "ab12cd") = 12 := by
  constructor
  · exact (claim_C5_amended_digit_extraction "no digits at all").1 (by decide)
  · have h := (claim_C5_amended_digit_extraction "ab12cd").2
      ['a', 'b'] ['1', '2'] ['c', 'd'] (by decide) (by decide) (by decide)
      (by decide) (by decide)
    exact h.trans (by decide)

/-- Claim C6 (spec-modelled aggregator): when both external signals are
absent, aggregation still succeeds with the weights collapsed onto the
lexicon, and the final score equals the lexicon score exactly - no
neutral default replaces it. -/
theorem claim_C6_total_fallback (lex : Int) (h0 : 0 ≤ lex) (h1 : lex ≤ 100) :
    aggregate lex none none = lex ∧ resolveWeights none none = (0, 1, 0) := by
  refine ⟨?_, by decide⟩
  have hw : resolveWeights none none = (0, 1, 0) := by decide
  have ha : aggregate lex none none =
      min 100 (max 0 (round (((50 : Int) : ℚ) * (resolveWeights none none).1 +
        (lex : ℚ) * (resolveWeights none none).2.1 +
        ((50 : Int) : ℚ) * (resolveWeights none none).2.2))) := rfl
  rw [ha, hw]
  have hr : (((50 : Int) : ℚ) * (0, (1 : ℚ), (0 : ℚ)).1 +
      (lex : ℚ) * (0, (1 : ℚ), (0 : ℚ)).2.1 +
      ((50 : Int) : ℚ) * (0, (1 : ℚ), (0 : ℚ)).2.2) = ((lex : Int) : ℚ) := by
    push_cast
    ring
  rw [hr, round_intCast]
  omega

theorem claim_C6_witness : aggregate 35 none none = 35 ∧
    resolveWeights none none = (0, 1, 0) :=
  claim_C6_total_fallback 35 (by norm_num) (by norm_num)

/-- Claim C7: an empty or whitespace-only input is rejected before
scoring - the handler shows a warning (modelled as `none`) and the
pipeline is not invoked - so analysis only ever runs on text with at
least one non-whitespace character. -/
theorem claim_C7_empty_input_rejected (hist : List HistEntry)
    (mode t : String) (o1 o2 : GenOutcome) :
    ((∀ c ∈ t.data, isPyWhitespace c = true) →
      onAnalyzeClick hist mode t o1 o2 = none) ∧
    (∀ res, onAnalyzeClick hist mode t o1 o2 = some res →
      ∃ c ∈ t.data, isPyWhitespace c = false) := by
  constructor
  · intro h
    unfold onAnalyzeClick
    rw [if_pos ((pyStrip_eq_empty_iff t).mpr h)]
  · intro res h
    unfold onAnalyzeClick at h
    by_cases hs : pyStrip t = ""
    · rw [if_pos hs] at h
      exact Option.noConfusion h
    · have h2 : ¬ ∀ c ∈ t.data, isPyWhitespace c = true :=
        fun hall => hs ((pyStrip_eq_empty_iff t).mpr hall)
      push_neg at h2
      obtain ⟨c, hc, hne⟩ := h2
      exact ⟨c, hc, by simpa using hne⟩

theorem claim_C7_witness :
    onAnalyzeClick [] "Crisis Detection" "  " (.ok "70") (.ok "resp") = none ∧
    ∃ c ∈ "hi".data, isPyWhitespace c = false :=
  ⟨(claim_C7_empty_input_rejected [] "Crisis Detection" "  "
      (.ok "70") (.ok "resp")).1 (by decide),
   (claim_C7_empty_input_rejected [] "Crisis Detection" "hi"
      (.ok "70") (.ok "resp")).2
     (Except.ok (70, [⟨"Crisis Detection", "hi", 70⟩])) (by rfl)⟩

/-- Claim C8: `get_stress_description` is total and deterministic on all
integers: every integer yields one of the four band strings, every level
below 25 (negatives included) yields the Minimal description, and every
level of 75 or more (values above 100 included) yields the High
description. -/
theorem claim_C8_total_on_integers (level : Int) :
    (get_stress_description level = minimalDesc ∨
     get_stress_description level = mildDesc ∨
     get_stress_description level = moderateDesc ∨
     get_stress_description level = highDesc) ∧
    (level < 25 → get_stress_description level = minimalDesc) ∧
    (75 ≤ level → get_stress_description level = highDesc) := by
  unfold get_stress_description
  refine ⟨?_, fun h => ?_, fun h => ?_⟩
  · split_ifs <;> simp
  · split_ifs <;> first | rfl | omega
  · split_ifs <;> first | rfl | omega

theorem claim_C8_witness :
    get_stress_description (-5) = minimalDesc ∧
    get_stress_description 150 = highDesc :=
  ⟨(claim_C8_total_on_integers (-5)).2.1 (by norm_num),
   (claim_C8_total_on_integers 150).2.2 (by norm_num)⟩

/-- Claim C9: the value extracted from the response is the first maximal
run of decimal digits, hence non-negative: the lower bound of the clamp
never changes the value, and a minus sign is ignored - a response
containing "-30" parses as 30. -/
theorem claim_C9_extracted_nonneg :
    (∀ (s : String) (v : Int), extractNumber s = some v →
      0 ≤ v ∧ min 100 (max 0 v) = min 100 v) ∧
    extractNumber "-30" = some 30 := by
  constructor
  · intro s v h
    have hv : 0 ≤ v := by
      unfold extractNumber at h
      cases hr : digitRun s.data with
      | none =>
        rw [hr] at h
        exact Option.noConfusion h
      | some r =>
        rw [hr] at h
        injection h with h2
        rw [← h2]
        exact Int.natCast_nonneg _
    exact ⟨hv, by rw [max_eq_right hv]⟩
  · decide

theorem claim_C9_witness :
    0 ≤ (30 : Int) ∧ min 100 (max 0 (30 : Int)) = min 100 30 :=
  claim_C9_extracted_nonneg.1 "-30" 30 (by decide)

/-- Claim C10: the session history is append-only and atomic with respect
to the detailed-analysis call: on an exception the history is unchanged;
on success exactly one entry is appended, whose preview is at most 83
characters (the first 80 plus dots when the input exceeds 80 characters)
and whose stress level is the bounded score. -/
theorem claim_C10_history_atomic (hist : List HistEntry)
    (mode text : String) (o1 : GenOutcome) :
    (∀ m, runAnalysis hist mode text o1 (.exn m) =
      .ok (get_stress_level o1, hist)) ∧
    (∀ r, ∃ e, runAnalysis hist mode text o1 (.ok r) =
        .ok (get_stress_level o1, hist ++ [e]) ∧
      e.mode = mode ∧ e.stress_level = get_stress_level o1 ∧
      e.input_preview.length ≤ 83 ∧
      (text.length ≤ 80 → e.input_preview = text) ∧
      (80 < text.length →
        e.input_preview = String.mk (text.data.take 80) ++ "...") ∧
      0 ≤ e.stress_level ∧ e.stress_level ≤ 100) := by
  obtain ⟨hb0, hb1⟩ := stress_bounds o1
  obtain ⟨hp1, hp2, hp3⟩ := inputPreview_spec text
  exact ⟨fun m => rfl,
    fun r => ⟨⟨mode, inputPreview text, get_stress_level o1⟩,
      rfl, rfl, rfl, hp1, hp2, hp3, hb0, hb1⟩⟩

theorem claim_C10_witness :
    ∃ e, runAnalysis [] "m" (String.mk (List.replicate 85 'a'))
        (.ok "40") (.ok "resp") = .ok (40, [e]) ∧
      e.input_preview = String.mk (List.replicate 80 'a') ++ "..." := by
  obtain ⟨e, h1, h2, h3, h4, h5, h6, h7, h8⟩ :=
    (claim_C10_history_atomic [] "m" (String.mk (List.replicate 85 'a'))
      (.ok "40")).2 "resp"
  refine ⟨e, ?_, ?_⟩
  · exact h1
  · have hl : 80 < (String.mk (List.replicate 85 'a')).length := by
      show 80 < (List.replicate 85 'a').length
      simp
    rw [h6 hl]
    have : (String.mk (List.replicate 85 'a')).data.take 80
        = List.replicate 80 'a' := by
      show (List.replicate 85 'a').take 80 = List.replicate 80 'a'
      simp [List.take_replicate]
    rw [this]
